import Mathlib

/-!
Verification of the refery functional-test runner against its specification.

The definitions below are a shallow embedding of the Python sources:
  * `src/refery/diff.py`       -- OutputMode.compare, ValueDiff/TextualDiff, TextualDiff.__rich__
  * `src/refery/test_suite.py` -- TestCase.__post_init__, TestCase.run, TestSuite.run
  * `src/src/test_suite.py`    -- the older TestSuite.run (exit-code aggregation, fatal)
  * `src/src/main.py`          -- main's process-exit aggregation

External effects (subprocess spawning, the behaviour of the tested and reference
binaries) are passed in explicitly as "world" values describing what the child
process would do.  Presentation-only data (rich markup escaping, colours, the
verbose command line) is not modelled; the structured content that presentation
consumes (statuses, discrepancy records, diff lines) is.
-/

/-- `OutputMode` from `src/refery/diff.py` (also in `src/src/test_suite.py`):
the comparison policy for one output channel. -/
inductive OutputMode where
  | STRICT
  | EXISTS
deriving DecidableEq

/-- Status of a test case, `TestStatus` from `src/refery/test_result.py`. -/
inductive TestStatus where
  | SUCCESS
  | FAILURE
  | ERROR
  | SKIPPED
deriving DecidableEq

/-- A discrepancy produced by a failed comparison.
`valueDiffS` is `ValueDiff` holding strings (the EXISTS-mode "nothing"/"something"),
`valueDiffI` is `ValueDiff` holding integers (the "Return codes" check),
`textualDiff` is `TextualDiff` (it stores the two texts; rendering is separate),
`message` is a plain string output (timeout / missing-binary / init-error text). -/
inductive Discrepancy where
  | valueDiffS (name expected actual : String)
  | valueDiffI (name : String) (expected actual : Int)
  | textualDiff (name expected actual : String)
  | message (text : String)
deriving DecidableEq

/-- `OutputMode.compare` from `src/refery/diff.py` lines 115-147.
`expected` is `Optional[str]`: `None` means no expectation was declared. -/
def OutputMode.compare (m : OutputMode) (name : String) (expected : Option String)
    (actual : String) : Option Discrepancy :=
  match expected with
  | none => none
  | some e =>
    match m with
    | .EXISTS =>
      if e = "" ∧ actual ≠ "" then
        some (.valueDiffS name "nothing" "something")
      else if e ≠ "" ∧ actual = "" then
        some (.valueDiffS name "something" "nothing")
      else
        none
    | .STRICT =>
      if e = actual then none
      else some (.textualDiff name e actual)

/-- A test case after `__post_init__` string-to-enum mode coercion,
`TestCase` from `src/refery/test_suite.py`.  `binary`/`ref` are kept as the
strings that name the executables (path resolution is a filesystem effect);
`timeout` is the declared number of seconds (`Optional[float]` in the source,
only ever formatted into the timeout message, modelled as an optional natural). -/
structure TestCaseR where
  binary : String
  name : String
  args : List String := []
  ref : Option String := none
  stdin : Option String := none
  stdout : Option String := none
  stderr : Option String := none
  exit_code : Option Int := none
  stdout_mode : OutputMode := .STRICT
  stderr_mode : OutputMode := .STRICT
  skipped : Bool := false
  timeout : Option Nat := none
  init_error : Option String := none
deriving DecidableEq

/-- What the reference binary would do when spawned: the contents it writes on
its two output channels and the exit code it eventually returns. -/
structure RefBehavior where
  stdout : String
  stderr : String
  code : Int
deriving DecidableEq

/-- Reference resolution in `TestCase.__post_init__`, `src/refery/test_suite.py`
lines 66-95.  `w = none` means `subprocess.Popen` raises `FileNotFoundError`.
When `stdin` is set the process is written to, closed and waited on; only then
is `Popen.returncode` filled in, so with `stdin` unset the read of `returncode`
yields `None` and an unset `exit_code` stays unset. -/
def postInitRef (c : TestCaseR) (w : Option RefBehavior) : TestCaseR :=
  if ¬ c.skipped ∧ c.ref.isSome then
    match w with
    | none =>
      { c with init_error := some ("No such file or directory: [b]" ++ c.ref.getD "" ++ "[/]") }
    | some r =>
      let waited := c.stdin.isSome
      { c with
        stdout := match c.stdout with
          | none => some r.stdout
          | some s => some s
        stderr := match c.stderr with
          | none => some r.stderr
          | some s => some s
        exit_code := match c.exit_code with
          | none => if waited then some r.code else none
          | some n => some n }
  else c

/-- `TestResult` from `src/refery/test_result.py`: name, status and the list of
outputs (discrepancies or plain messages).  The presentation-only fields
(`verbosity`, `command`) are not modelled. -/
structure TestResultR where
  name : String
  status : TestStatus
  outputs : List Discrepancy
deriving DecidableEq

/-- What the tested binary would do once spawned: either the `communicate` call
raises `TimeoutExpired`, or the process completes with the given outputs. -/
inductive ProcBehavior where
  | timeout
  | completes (stdout stderr : String) (code : Int)
deriving DecidableEq

/-- Result of one `TestCase.run`, together with the process-lifecycle facts the
spec talks about: whether the tested binary's process was created, and whether
it was terminated before returning. -/
structure RunOutcome where
  result : TestResultR
  spawned : Bool
  terminated : Bool
deriving DecidableEq

/-- The f-string `f"[b]{self.timeout}s[/] timeout exceeded."` from
`src/refery/test_suite.py` line 140 (Python renders an absent float as `None`). -/
def timeoutMsg : Option Nat → String
  | some t => "[b]" ++ toString t ++ "s[/] timeout exceeded."
  | none => "[b]Nones[/] timeout exceeded."

/-- `TestCase.__run_assertions` from `src/refery/test_suite.py` lines 154-195:
run all three channel checks, collect every discrepancy, SUCCESS iff none. -/
def runAssertions (c : TestCaseR) (stdout stderr : String) (exit_code : Int) :
    TestResultR :=
  let diffs : List Discrepancy := []
  let diffs := match c.stdout_mode.compare "Standard outputs" c.stdout stdout with
    | some d => diffs ++ [d]
    | none => diffs
  let diffs := match c.stderr_mode.compare "Standard errors" c.stderr stderr with
    | some d => diffs ++ [d]
    | none => diffs
  let diffs := match c.exit_code with
    | some n => if n ≠ exit_code then diffs ++ [.valueDiffI "Return codes" n exit_code] else diffs
    | none => diffs
  { name := c.name
    status := if diffs.isEmpty then .SUCCESS else .FAILURE
    outputs := diffs }

/-- `TestCase.run` from `src/refery/test_suite.py` lines 97-152.
`w = none` models `Popen` raising `FileNotFoundError`.  `process.terminate()`
sits in a `finally` clause, so it runs on both the timeout and the normal path. -/
def TestCaseR.run (c : TestCaseR) (w : Option ProcBehavior) : RunOutcome :=
  if c.skipped then
    ⟨⟨c.name, .SKIPPED, []⟩, false, false⟩
  else
    match c.init_error with
    | some e => ⟨⟨c.name, .ERROR, [.message e]⟩, false, false⟩
    | none =>
      match w with
      | none =>
        ⟨⟨c.name, .ERROR,
          [.message ("No such file or directory: [b]" ++ c.binary ++ "[/]")]⟩,
          false, false⟩
      | some .timeout =>
        ⟨⟨c.name, .FAILURE, [.message (timeoutMsg c.timeout)]⟩, true, true⟩
      | some (.completes out err code) =>
        ⟨runAssertions c out err code, true, true⟩

/-- `TestSuite` from `src/refery/test_suite.py` (the fields the run loop uses). -/
structure TestSuiteR where
  name : String
  tests : List TestCaseR
  fatal : Bool := false
deriving DecidableEq

/-- Observable outcome of `TestSuite.run`: which test cases were executed (by
name, in order), the results that were reported, and the returned exit code. -/
structure SuiteRun where
  executed : List String
  results : List TestResultR
  exitCode : Int
deriving DecidableEq

/-- `TestSuite.run` from `src/refery/test_suite.py` lines 247-288: the loop
visits every test unconditionally (the `fatal` field is never consulted),
`exit_code` is initialised to `0` and never modified, and is returned. -/
def TestSuiteR.run (s : TestSuiteR) (worlds : List (Option ProcBehavior)) : SuiteRun :=
  let outs := (s.tests.zip worlds).map (fun p => (p.1.name, p.1.run p.2))
  { executed := outs.map (fun o => o.1)
    results := outs.map (fun o => o.2.result)
    exitCode := 0 }

/-- `TestResult` of `src/src/test_suite.py` (the older engine). -/
inductive SrcResult where
  | SUCCESS
  | FAILURE
  | ERROR
  | SKIPPED
deriving DecidableEq

/-- The result-handling loop of `TestSuite.run` in `src/src/test_suite.py`
lines 275-339, as a function of the per-case results.  Returns the list of
cases the loop actually processed and `some exit_code` on normal return;
`none` models the uncaught `InterruptedError` raised when `fatal` is set and a
case FAILED (the raise happens before `exit_code = 1`).  Only the FAILURE
branch touches `exit_code`; ERROR and SKIPPED leave it unchanged. -/
def srcSuiteRunLoop (fatal : Bool) : List SrcResult → Int → List SrcResult × Option Int
  | [], ec => ([], some ec)
  | r :: rs, ec =>
    if r = .FAILURE then
      if fatal then ([r], none)
      else
        let rest := srcSuiteRunLoop fatal rs 1
        (r :: rest.1, rest.2)
    else
      let rest := srcSuiteRunLoop fatal rs ec
      (r :: rest.1, rest.2)

/-- `TestSuite.run` of `src/src/test_suite.py`: `exit_code` starts at 0. -/
def srcSuiteRun (fatal : Bool) (results : List SrcResult) : List SrcResult × Option Int :=
  srcSuiteRunLoop fatal results 0

/-- Python truthiness of an int, as used by `bool(testsuite.run())`. -/
def pyBool (n : Int) : Nat := if n = 0 then 0 else 1

/-- `main` from `src/src/main.py` lines 6-18: `exit_code = 1`, then
`exit_code &= bool(testsuite.run())` for every suite, and the result is the
process exit status. -/
def srcMain (runCodes : List Int) : Nat :=
  runCodes.foldl (fun ec r => ec &&& pyBool r) 1

/-- A mode argument as it arrives at `TestCase.__post_init__`: either already an
`OutputMode` member (the dataclass default) or the raw YAML string. -/
inductive ModeArg where
  | mode (m : OutputMode)
  | str (s : String)
deriving DecidableEq

/-- ASCII upper-casing, `str.upper` for the mode names involved. -/
def pyUpper (s : String) : String := ⟨s.data.map Char.toUpper⟩

/-- `OutputMode[key]` member lookup; `none` models the `KeyError`. -/
def outputModeOfName (s : String) : Option OutputMode :=
  if s = "STRICT" then some .STRICT
  else if s = "EXISTS" then some .EXISTS
  else none

/-- The first two `isinstance` coercions of `TestCase.__post_init__`,
`src/refery/test_suite.py` lines 61-64 (identical in `src/src/test_suite.py`
lines 117-120):

    if isinstance(self.stdout_mode, str):
        self.stderr_mode = OutputMode[self.stdout_mode.upper()]
    if isinstance(self.stderr_mode, str):
        self.stderr_mode = OutputMode[self.stderr_mode.upper()]

Note the first branch assigns `stderr_mode` (and leaves `stdout_mode` the raw
string).  Input and output are the (stdout_mode, stderr_mode) pair;
`Except.error` models the `KeyError` escaping on an unknown name. -/
def resolveModes (p : ModeArg × ModeArg) : Except String (ModeArg × ModeArg) := do
  let so := p.1
  let se := p.2
  let se ← match so with
    | .str s =>
      match outputModeOfName (pyUpper s) with
      | some m => pure (ModeArg.mode m)
      | none => throw ("KeyError: " ++ pyUpper s)
    | .mode _ => pure se
  let se ← match se with
    | .str s =>
      match outputModeOfName (pyUpper s) with
      | some m => pure (ModeArg.mode m)
      | none => throw ("KeyError: " ++ pyUpper s)
    | .mode _ => pure se
  return (so, se)

/-- True exactly on the "Return codes" discrepancy (`ValueDiff` over integers),
the only discrepancy the exit-code check can produce. -/
def Discrepancy.isReturnCodeDiff : Discrepancy → Bool
  | .valueDiffI _ _ _ => true
  | _ => false

/-- Does any discrepancy in the list come from the exit-code check? -/
def hasReturnCodeDiff (l : List Discrepancy) : Bool :=
  l.any Discrepancy.isReturnCodeDiff

/-- Single-character `str.startswith` (the source only ever checks the
one-character prefixes "-", "+", "@"). -/
def pyStartsWith (c : Char) (s : String) : Bool := s.data.head? == some c

/-- Single-character `str.endswith` (the source only checks "\n"). -/
def pyEndsWith (c : Char) (s : String) : Bool := s.data.getLast? == some c

/-- Python string concatenation `c + s` for a one-character left operand. -/
def charCons (c : Char) (s : String) : String := ⟨c :: s.data⟩

/-- `str.removeprefix` for a one-character prefix that is known to be present:
drop the first character. -/
def pyTail (s : String) : String := ⟨s.data.tail⟩

/-- Drop the final character, the effect of `removesuffix("\n")` when the
suffix is present. -/
def pyRemoveLast (s : String) : String := ⟨s.data.dropLast⟩

/-- `str.replace("\n", repl)`. -/
def pyReplaceNL (s : String) (repl : String) : String :=
  ⟨(s.data.map (fun c => if c = '\n' then repl.data else [c])).flatten⟩

/-- Split a character list at every newline; the segments between newlines, a
trailing segment included even when empty. -/
def splitOnNL : List Char → List (List Char)
  | [] => [[]]
  | c :: rest =>
    if c = '\n' then [] :: splitOnNL rest
    else
      match splitOnNL rest with
      | [] => [[c]]
      | l :: ls => (c :: l) :: ls

/-- `str.splitlines()` for newline-terminated text: like splitting on "\n" but
without a trailing empty entry.  (Python also splits on \r and rarer line
boundaries; the engine's inputs are processed so their line breaks are "\n".) -/
def pySplitLines (s : String) : List String :=
  let parts := splitOnNL s.data
  (if parts.getLast? = some [] then parts.dropLast else parts).map (fun l => (⟨l⟩ : String))

/-- Python list slice `l[i:j]` for 0 ≤ i ≤ j. -/
def pySlice (l : List String) (i j : Nat) : List String := (l.take j).drop i

/-- The ascending positions of `x` within `b`: difflib's `b2j[x]`
(`SequenceMatcher.__chain_b` without junk; no junk function is passed and the
popularity heuristic, active only on sequences of 200+ lines, is omitted). -/
def b2jIndices (b : List String) (x : String) : List Nat :=
  (List.range b.length).filter (fun j => b.get? j == some x)

/-- Lookup with default 0, difflib's `j2len.get(key, 0)`. -/
def lookupD (m : List (Nat × Nat)) (k : Nat) : Nat :=
  match m.find? (fun p => p.1 == k) with
  | some p => p.2
  | none => 0

/-- Best match found so far in `find_longest_match`: start in `a`, start in
`b`, and length. -/
structure FLMBest where
  i : Nat
  j : Nat
  size : Nat
deriving DecidableEq

/-- One row (one value of `i`) of `SequenceMatcher.find_longest_match`'s inner
loop: for every `j` in `[blo, bhi)` with `b[j] = a[i]`, the run ending at
`(i, j)` extends the run ending at `(i-1, j-1)` by one; track the longest. -/
def flmRow (i : Nat) (aI : String) (b : List String) (blo bhi : Nat)
    (old : List (Nat × Nat)) (best : FLMBest) : List (Nat × Nat) × FLMBest :=
  ((b2jIndices b aI).filter (fun j => blo ≤ j ∧ j < bhi)).foldl
    (fun st j =>
      let k := (if j = 0 then 0 else lookupD old (j - 1)) + 1
      let nb := if k > st.2.size then (⟨i + 1 - k, j + 1 - k, k⟩ : FLMBest) else st.2
      ((j, k) :: st.1, nb))
    ([], best)

/-- `SequenceMatcher.find_longest_match` on `a[alo:ahi]` / `b[blo:bhi]`
(no junk, so the junk-extension passes are no-ops). -/
def findLongestMatch (a b : List String) (alo ahi blo bhi : Nat) : FLMBest :=
  ((List.range' alo (ahi - alo)).foldl
    (fun st i => flmRow i (a.getD i "") b blo bhi st.1 st.2)
    (([] : List (Nat × Nat)), (⟨alo, blo, 0⟩ : FLMBest))).2

/-- A matching block `(i, j, size)`: `a[i:i+size] == b[j:j+size]`. -/
structure Block where
  a : Nat
  b : Nat
  size : Nat
deriving DecidableEq

/-- The recursive part of `SequenceMatcher.get_matching_blocks`: find the
longest match, recurse on what precedes and follows it.  Emitted here already
sorted (difflib collects via a queue and sorts).  The fuel only bounds the
recursion depth; `(a.length + b.length + 1)` always suffices because each
recursive call strictly shrinks the interval sum. -/
def matchBlocksF (a b : List String) : Nat → Nat → Nat → Nat → Nat → List Block
  | 0, _, _, _, _ => []
  | fuel + 1, alo, ahi, blo, bhi =>
    let m := findLongestMatch a b alo ahi blo bhi
    if m.size = 0 then []
    else
      (if alo < m.i ∧ blo < m.j then matchBlocksF a b fuel alo m.i blo m.j else [])
      ++ [⟨m.i, m.j, m.size⟩]
      ++ (if m.i + m.size < ahi ∧ m.j + m.size < bhi then
            matchBlocksF a b fuel (m.i + m.size) ahi (m.j + m.size) bhi
          else [])

/-- The adjacent-block merging pass at the end of `get_matching_blocks`. -/
def mergeAdjacent : Nat → Nat → Nat → List Block → List Block
  | i1, j1, k1, [] => if k1 ≠ 0 then [⟨i1, j1, k1⟩] else []
  | i1, j1, k1, blk :: rest =>
    if i1 + k1 = blk.a ∧ j1 + k1 = blk.b then mergeAdjacent i1 j1 (k1 + blk.size) rest
    else (if k1 ≠ 0 then [⟨i1, j1, k1⟩] else []) ++ mergeAdjacent blk.a blk.b blk.size rest

/-- `SequenceMatcher.get_matching_blocks`, terminator block included. -/
def getMatchingBlocks (a b : List String) : List Block :=
  mergeAdjacent 0 0 0 (matchBlocksF a b (a.length + b.length + 1) 0 a.length 0 b.length)
  ++ [⟨a.length, b.length, 0⟩]

/-- Opcode tags of `SequenceMatcher.get_opcodes`. -/
inductive Tag where
  | replace
  | delete
  | insert
  | equal
deriving DecidableEq

/-- One opcode `(tag, i1, i2, j1, j2)`. -/
structure Opcode where
  tag : Tag
  i1 : Nat
  i2 : Nat
  j1 : Nat
  j2 : Nat
deriving DecidableEq

/-- The loop of `SequenceMatcher.get_opcodes` over the matching blocks. -/
def opcodesFromBlocks : Nat → Nat → List Block → List Opcode
  | _, _, [] => []
  | i, j, blk :: rest =>
    let pre : List Opcode :=
      if i < blk.a ∧ j < blk.b then [⟨.replace, i, blk.a, j, blk.b⟩]
      else if i < blk.a then [⟨.delete, i, blk.a, j, blk.b⟩]
      else if j < blk.b then [⟨.insert, i, blk.a, j, blk.b⟩]
      else []
    let eqs : List Opcode :=
      if blk.size ≠ 0 then [⟨.equal, blk.a, blk.a + blk.size, blk.b, blk.b + blk.size⟩]
      else []
    pre ++ eqs ++ opcodesFromBlocks (blk.a + blk.size) (blk.b + blk.size) rest

/-- `SequenceMatcher.get_opcodes`. -/
def getOpcodes (a b : List String) : List Opcode :=
  opcodesFromBlocks 0 0 (getMatchingBlocks a b)

/-- `_get_grouped_opcodes`: trim a leading equal run to `n` context lines. -/
def trimFirstEqual (n : Nat) : List Opcode → List Opcode
  | [] => []
  | c :: rest =>
    (if c.tag = .equal then { c with i1 := max c.i1 (c.i2 - n), j1 := max c.j1 (c.j2 - n) }
     else c) :: rest

/-- `_get_grouped_opcodes`: trim a trailing equal run to `n` context lines. -/
def trimLastEqual (n : Nat) (codes : List Opcode) : List Opcode :=
  match codes.getLast? with
  | none => []
  | some c =>
    codes.dropLast ++
      [if c.tag = .equal then { c with i2 := min c.i2 (c.i1 + n), j2 := min c.j2 (c.j1 + n) }
       else c]

/-- One step of `_get_grouped_opcodes`' grouping loop: a long-enough equal run
closes the current group (keeping `n` trailing context lines) and opens the
next one (keeping `n` leading context lines). -/
def groupStep (n : Nat) (st : List (List Opcode) × List Opcode) (c : Opcode) :
    List (List Opcode) × List Opcode :=
  if c.tag = .equal ∧ c.i2 - c.i1 > n + n then
    (st.1 ++ [st.2 ++ [{ c with i2 := min c.i2 (c.i1 + n), j2 := min c.j2 (c.j1 + n) }]],
     [{ c with i1 := max c.i1 (c.i2 - n), j1 := max c.j1 (c.j2 - n) }])
  else (st.1, st.2 ++ [c])

/-- The grouping loop of `_get_grouped_opcodes`, with its final guard: the last
group is dropped when it is empty or a single equal opcode. -/
def splitGroups (n : Nat) (codes : List Opcode) : List (List Opcode) :=
  let st := codes.foldl (groupStep n) ([], [])
  if st.2 ≠ [] ∧ ¬(st.2.length = 1 ∧ (st.2.headD ⟨.equal, 0, 0, 0, 0⟩).tag = .equal)
  then st.1 ++ [st.2] else st.1

/-- `difflib._get_grouped_opcodes(n)`, empty-input dummy opcode included. -/
def groupedOpcodes (n : Nat) (a b : List String) : List (List Opcode) :=
  let codes := getOpcodes a b
  let codes := if codes = [] then [(⟨.equal, 0, 1, 0, 1⟩ : Opcode)] else codes
  splitGroups n (trimLastEqual n (trimFirstEqual n codes))

/-- `difflib._format_range_unified`. -/
def fmtRangeUnified (start stop : Nat) : String :=
  let length := stop - start
  if length = 1 then toString (start + 1)
  else if length = 0 then toString start ++ ",0"
  else toString (start + 1) ++ "," ++ toString length

/-- The `@@ -... +... @@` hunk-location line of a group (`lineterm` is ""). -/
def hunkLine (g : List Opcode) : String :=
  let first := g.headD ⟨.equal, 0, 0, 0, 0⟩
  let last := g.getLastD ⟨.equal, 0, 0, 0, 0⟩
  "@@ -" ++ fmtRangeUnified first.i1 last.i2 ++ " +" ++ fmtRangeUnified first.j1 last.j2 ++ " @@"

/-- The content lines one opcode contributes in `difflib.unified_diff`:
`' '+line` over `a[i1:i2]` for equal, `'-'+line` over `a[i1:i2]` for
replace/delete, `'+'+line` over `b[j1:j2]` for replace/insert. -/
def opLines (a b : List String) (op : Opcode) : List String :=
  match op.tag with
  | .equal => (pySlice a op.i1 op.i2).map (fun x => charCons ' ' x)
  | .replace =>
      (pySlice a op.i1 op.i2).map (fun x => charCons '-' x)
      ++ (pySlice b op.j1 op.j2).map (fun x => charCons '+' x)
  | .delete => (pySlice a op.i1 op.i2).map (fun x => charCons '-' x)
  | .insert => (pySlice b op.j1 op.j2).map (fun x => charCons '+' x)

/-- `difflib.unified_diff(a, b, lineterm="")` with all file names/dates empty,
as called at `src/refery/diff.py` line 58: the two header lines "--- " and
"+++ " (emitted once, before the first group), then per group its hunk line
and content lines. -/
def unifiedDiffLines (a b : List String) : List String :=
  let groups := groupedOpcodes 3 a b
  if groups = [] then []
  else ["--- ", "+++ "] ++ groups.flatMap (fun g => hunkLine g :: g.flatMap (opLines a b))

/-- A rendered diff line of `TextualDiff`: a red `"- "`-marked line, a green
`"+ "`-marked one, or an uncoloured context line (the payload strings carry
what the source styles; colours themselves are presentation). -/
inductive DiffLine where
  | minus (rest : String)
  | plus (rest : String)
  | context (s : String)
deriving DecidableEq

/-- `TextualDiff.__format_line`, `src/refery/diff.py` lines 74-98:
`removesuffix("\n")`, then the first matching prefix of "-", "+" colours the
line (prefix removed from the payload); otherwise `" " + line`. -/
def formatLine (line : String) : DiffLine :=
  let line := if pyEndsWith '\n' line then pyRemoveLast line else line
  if pyStartsWith '-' line then .minus (pyTail line)
  else if pyStartsWith '+' line then .plus (pyTail line)
  else .context (charCons ' ' line)

/-- The `pretty_newline` choice of `TextualDiff.__rich__` lines 50-53: plain
"\n" when both texts agree on having a trailing newline, else the visible
marker "↵\n". -/
def prettyNL (expected actual : String) : String :=
  if pyEndsWith '\n' actual == pyEndsWith '\n' expected then "\n" else "↵\n"

/-- The actual ("got") line sequence handed to `unified_diff` (first argument). -/
def actLines (expected actual : String) : List String :=
  pySplitLines (pyReplaceNL actual (prettyNL expected actual))

/-- The expected line sequence handed to `unified_diff` (second argument). -/
def expLines (expected actual : String) : List String :=
  pySplitLines (pyReplaceNL expected (prettyNL expected actual))

/-- The diff body built by `TextualDiff.__rich__`, lines 49-63: unified diff of
(actual, expected), the two header lines dropped (`islice(_, 2, None)`), the
`@`-prefixed hunk lines filtered out, each remaining line formatted.
(The `rich` markup escaping applied in `__post_init__` and the panel/colour
chrome are presentation and not modelled.) -/
def renderTextualDiff (expected actual : String) : List DiffLine :=
  (((unifiedDiffLines (actLines expected actual) (expLines expected actual)).drop 2).filter
    (fun s => !pyStartsWith '@' s)).map formatLine

/-- Which side of the comparison a rendered diff line's payload comes from:
a "-" line carries a line of the actual ("got") text, a "+" line carries a
line of the expected text, and a context line carries an actual-text line
behind two added spaces. -/
def lineOk (act exp : List String) : DiffLine → Bool
  | .minus r => act.contains r
  | .plus r => exp.contains r
  | .context s => (act.map (fun x => charCons ' ' (charCons ' ' x))).contains s

/-- A discrepancy produced by `OutputMode.compare` is never the return-code
`ValueDiff`: the text-channel comparator only ever builds string-valued
discrepancies. -/
theorem compare_no_returnCodeDiff (m : OutputMode) (n : String) (e : Option String)
    (a : String) (d : Discrepancy) (h : m.compare n e a = some d) :
    d.isReturnCodeDiff = false := by
  cases e with
  | none => simp [OutputMode.compare] at h
  | some s =>
    cases m with
    | STRICT =>
      simp only [OutputMode.compare] at h
      split at h
      · simp at h
      · cases h
        rfl
    | EXISTS =>
      simp only [OutputMode.compare] at h
      split at h
      · cases h
        rfl
      · split at h
        · cases h
          rfl
        · simp at h

/-- With no declared `exit_code`, `__run_assertions` never emits a return-code
discrepancy. -/
theorem runAssertions_no_returnCodeDiff (c : TestCaseR) (out err : String) (k : Int)
    (h : c.exit_code = none) :
    hasReturnCodeDiff (runAssertions c out err k).outputs = false := by
  unfold runAssertions
  rw [h]
  cases h1 : c.stdout_mode.compare "Standard outputs" c.stdout out with
  | none =>
    cases h2 : c.stderr_mode.compare "Standard errors" c.stderr err with
    | none => simp [hasReturnCodeDiff]
    | some d2 => simp [hasReturnCodeDiff, compare_no_returnCodeDiff _ _ _ _ _ h2]
  | some d1 =>
    cases h2 : c.stderr_mode.compare "Standard errors" c.stderr err with
    | none => simp [hasReturnCodeDiff, compare_no_returnCodeDiff _ _ _ _ _ h1]
    | some d2 =>
      simp [hasReturnCodeDiff, compare_no_returnCodeDiff _ _ _ _ _ h1,
        compare_no_returnCodeDiff _ _ _ _ _ h2]

/-- Claim C1: under STRICT the comparison passes exactly when expected and
actual are equal byte-for-byte; under EXISTS exactly when their emptiness
agrees; and an unset expectation passes unconditionally under any policy. -/
theorem compare_policy_correct (name e a : String) (m : OutputMode) :
    (OutputMode.STRICT.compare name (some e) a = none ↔ e = a) ∧
    (OutputMode.EXISTS.compare name (some e) a = none ↔ (e = "" ↔ a = "")) ∧
    m.compare name none a = none := by
  refine ⟨?_, ?_, rfl⟩
  · unfold OutputMode.compare
    split <;> simp_all
  · unfold OutputMode.compare
    by_cases he : e = "" <;> by_cases ha : a = "" <;> simp [he, ha]

/-- Claim C2 (code bug): `TestSuite.run` of `src/refery/test_suite.py` returns
0 even when its only case FAILs (its `exit_code` local is initialised to 0 and
never written, despite the docstring "Returns 0 if all tests succeeded, else
1"); and the older `src/src/test_suite.py` loop returns 0 when its only case
is an ERROR (only the FAILURE branch sets `exit_code = 1`). -/
theorem suite_failure_returns_zero :
    (let r := TestSuiteR.run
      { name := "s",
        tests := [{ binary := "bin", name := "t1", stdout := some "hi\n" }] }
      [some (.completes "bye\n" "" 0)]
     (r.exitCode, r.results.map TestResultR.status)) = (0, [.FAILURE]) ∧
    (srcSuiteRun false [.ERROR]).2 = some 0 := by
  constructor
  · rfl
  · rfl

/-- Claim C3 (code bug): in `src/refery/test_suite.py` the run loop never
consults `fatal`: with `fatal` set and the first case FAILing, the second case
is still executed and reported and the run still returns 0.  In
`src/src/test_suite.py` the FAILURE branch raises `InterruptedError` before
`exit_code = 1`, so the aborting run returns no status at all (and the ERROR
branch never aborts). -/
theorem fatal_flag_ignored :
    (let r := TestSuiteR.run
      { name := "s", fatal := true,
        tests := [{ binary := "bin", name := "t1", stdout := some "hi\n" },
                  { binary := "bin", name := "t2", stdout := some "hi\n" }] }
      [some (.completes "bye\n" "" 0), some (.completes "hi\n" "" 0)]
     (r.executed, r.results.map TestResultR.status, r.exitCode))
      = (["t1", "t2"], [.FAILURE, .SUCCESS], 0) ∧
    srcSuiteRunLoop true [.FAILURE, .SUCCESS] 0 = ([.FAILURE], none) := by
  constructor
  · rfl
  · rfl

/-- Claim C4 (code bug): with `ref` set and `stdin` unset, construction reads
`Popen.returncode` without ever calling `wait()`, so an unset `exit_code`
stays unset instead of being resolved to the reference's exit code (here 3);
`stdout` is still resolved, and with `stdin` set the wait happens and the
exit code is captured. -/
theorem ref_exit_code_not_resolved :
    (postInitRef { binary := "bin", name := "t", ref := some "refbin" }
      (some ⟨"out", "err", 3⟩)).exit_code = none ∧
    (postInitRef { binary := "bin", name := "t", ref := some "refbin" }
      (some ⟨"out", "err", 3⟩)).stdout = some "out" ∧
    (postInitRef { binary := "bin", name := "t", ref := some "refbin", stdin := some "x" }
      (some ⟨"out", "err", 3⟩)).exit_code = some 3 := by
  refine ⟨rfl, rfl, rfl⟩

/-- Claim C5: when `communicate` hits the declared timeout, `TestCase.run`
returns FAILURE (not ERROR) with the "timeout exceeded" message naming the
declared value, and the process is terminated on that exit path (the
`finally` clause). -/
theorem timeout_gives_failure (c : TestCaseR) (t : Nat)
    (h1 : c.skipped = false) (h2 : c.init_error = none) (h3 : c.timeout = some t) :
    (c.run (some .timeout)).result.status = .FAILURE ∧
    (c.run (some .timeout)).result.outputs
      = [.message ("[b]" ++ toString t ++ "s[/] timeout exceeded.")] ∧
    (c.run (some .timeout)).terminated = true ∧
    (c.run (some .timeout)).spawned = true := by
  simp [TestCaseR.run, h1, h2, h3, timeoutMsg]

/-- Witness for C5 at a concrete case with a 2-second timeout. -/
theorem timeout_gives_failure_witness :
    (({ binary := "bin", name := "t", timeout := some 2 } : TestCaseR).run
        (some .timeout)).result.status = .FAILURE ∧
    (({ binary := "bin", name := "t", timeout := some 2 } : TestCaseR).run
        (some .timeout)).result.outputs
      = [.message ("[b]" ++ toString 2 ++ "s[/] timeout exceeded.")] ∧
    (({ binary := "bin", name := "t", timeout := some 2 } : TestCaseR).run
        (some .timeout)).terminated = true ∧
    (({ binary := "bin", name := "t", timeout := some 2 } : TestCaseR).run
        (some .timeout)).spawned = true :=
  timeout_gives_failure { binary := "bin", name := "t", timeout := some 2 } 2 rfl rfl rfl

/-- Claim C6: a skipped case is returned as SKIPPED with no outputs and no
process creation, whatever the world does (the tested binary may not even
exist), and construction also skips the reference run entirely. -/
theorem skipped_never_spawns (c : TestCaseR) (wRef : Option RefBehavior)
    (w : Option ProcBehavior) (h : c.skipped = true) :
    postInitRef c wRef = c ∧
    c.run w = ⟨⟨c.name, .SKIPPED, []⟩, false, false⟩ := by
  constructor
  · simp [postInitRef, h]
  · simp [TestCaseR.run, h]

/-- Witness for C6: a skipped case whose binary path does not exist (the spawn
world is the `FileNotFoundError` one) still reports SKIPPED, not ERROR. -/
theorem skipped_never_spawns_witness :
    postInitRef { binary := "missing", name := "t", skipped := true } none
      = { binary := "missing", name := "t", skipped := true } ∧
    ({ binary := "missing", name := "t", skipped := true } : TestCaseR).run none
      = ⟨⟨"t", .SKIPPED, []⟩, false, false⟩ :=
  skipped_never_spawns { binary := "missing", name := "t", skipped := true } none none rfl

/-- Claim C7 (code bug): `main` in `src/src/main.py` folds
`exit_code &= bool(testsuite.run())` starting from 1, so with a fully
successful first suite (run code 0) and a failing second suite (run code 1)
the process exit status is `1 & 0 & 1 = 0` even though a case failed. -/
theorem main_exit_inverted :
    (srcSuiteRun false [.SUCCESS]).2 = some 0 ∧
    (srcSuiteRun false [.FAILURE]).2 = some 1 ∧
    srcMain [0, 1] = 0 := by
  refine ⟨rfl, rfl, rfl⟩

/-- Claim C9 (code bug): `__post_init__` given `stdout_mode="exists"` assigns
`OutputMode.EXISTS` to `stderr_mode` (the first `isinstance` branch writes the
wrong field) and leaves `stdout_mode` as the raw string, the opposite of the
per-channel contract. -/
theorem stdout_mode_sets_stderr :
    resolveModes (.str "exists", .mode .STRICT)
      = .ok (.str "exists", .mode .EXISTS) := rfl

/-- Claim C10: with `ref` set but `stdin` and `exit_code` unset, construction
never waits on the reference process, so `exit_code` remains unset — the
exit-code check is disabled for every run (no "Return codes" discrepancy can
be produced) — while unset `stdout`/`stderr` are still filled from the
reference output. -/
theorem ref_no_stdin_exit_unset (c : TestCaseR) (r : RefBehavior) (w : Option ProcBehavior)
    (h1 : c.skipped = false) (h2 : c.ref.isSome = true) (h3 : c.stdin = none)
    (h4 : c.exit_code = none) (h5 : c.stdout = none) (h6 : c.stderr = none) :
    (postInitRef c (some r)).exit_code = none ∧
    (postInitRef c (some r)).stdout = some r.stdout ∧
    (postInitRef c (some r)).stderr = some r.stderr ∧
    hasReturnCodeDiff ((postInitRef c (some r)).run w).result.outputs = false := by
  have hpost : postInitRef c (some r)
      = { c with stdout := some r.stdout, stderr := some r.stderr, exit_code := none } := by
    simp [postInitRef, h1, h2, h3, h4, h5, h6]
  refine ⟨by rw [hpost], by rw [hpost], by rw [hpost], ?_⟩
  rw [hpost]
  unfold TestCaseR.run
  simp only [h1, Bool.false_eq_true, if_false]
  cases hie : c.init_error with
  | some e => simp [hie, hasReturnCodeDiff, Discrepancy.isReturnCodeDiff]
  | none =>
    cases w with
    | none => simp [hie, hasReturnCodeDiff, Discrepancy.isReturnCodeDiff]
    | some pb =>
      cases pb with
      | timeout => simp [hie, hasReturnCodeDiff, Discrepancy.isReturnCodeDiff]
      | completes out err code =>
        simp only [hie]
        exact runAssertions_no_returnCodeDiff _ out err code rfl

/-- Witness for C10: concrete case with a reference exiting 7; `exit_code`
stays unset, outputs are filled, and a run that exits 5 raises no return-code
discrepancy. -/
theorem ref_no_stdin_exit_unset_witness :
    (postInitRef { binary := "bin", name := "t", ref := some "refbin" }
        (some ⟨"o", "e", 7⟩)).exit_code = none ∧
    (postInitRef { binary := "bin", name := "t", ref := some "refbin" }
        (some ⟨"o", "e", 7⟩)).stdout = some "o" ∧
    (postInitRef { binary := "bin", name := "t", ref := some "refbin" }
        (some ⟨"o", "e", 7⟩)).stderr = some "e" ∧
    hasReturnCodeDiff ((postInitRef { binary := "bin", name := "t", ref := some "refbin" }
        (some ⟨"o", "e", 7⟩)).run (some (.completes "x" "y" 5))).result.outputs = false :=
  ref_no_stdin_exit_unset { binary := "bin", name := "t", ref := some "refbin" }
    ⟨"o", "e", 7⟩ (some (.completes "x" "y" 5)) rfl rfl rfl rfl rfl rfl

/-- Elements of a Python slice `l[i:j]` are elements of `l`. -/
theorem mem_pySlice {l : List String} {x : String} {i j : Nat} (h : x ∈ pySlice l i j) :
    x ∈ l :=
  List.mem_of_mem_take (List.mem_of_mem_drop h)

/-- Segments produced by splitting at newlines contain no newline. -/
theorem splitOnNL_no_nl (cs : List Char) : ∀ l ∈ splitOnNL cs, '\n' ∉ l := by
  induction cs with
  | nil =>
    intro l hl
    simp [splitOnNL] at hl
    simp [hl]
  | cons c rest ih =>
    intro l hl
    simp only [splitOnNL] at hl
    split at hl
    · rcases List.mem_cons.mp hl with h | h
      · simp [h]
      · exact ih l h
    · rename_i hc
      split at hl
      · rename_i heq
        rcases List.mem_cons.mp hl with h | h
        · subst h
          intro hmem
          exact hc (List.mem_singleton.mp hmem).symm
        · simp at h
      · rename_i l0 ls0 heq
        rcases List.mem_cons.mp hl with h | h
        · subst h
          intro hmem
          rcases List.mem_cons.mp hmem with h2 | h2
          · exact hc h2.symm
          · exact ih l0 (by rw [heq]; exact List.mem_cons_self _ _) h2
        · exact ih l (by rw [heq]; exact List.mem_cons_of_mem _ h)

/-- Lines coming out of `pySplitLines` contain no newline character. -/
theorem pySplitLines_no_nl (s : String) : ∀ x ∈ pySplitLines s, '\n' ∉ x.data := by
  intro x hx
  unfold pySplitLines at hx
  rcases List.mem_map.mp hx with ⟨l, hl, rfl⟩
  have hl2 : l ∈ splitOnNL s.data := by
    split at hl
    · exact List.mem_of_mem_dropLast hl
    · exact hl
  exact splitOnNL_no_nl _ l hl2

/-- A cons list whose head and members avoid the newline also ends on a
non-newline character. -/
theorem getLast_ne_nl : ∀ (l : List Char) (c : Char), '\n' ∉ l → c ≠ '\n' →
    (c :: l).getLast? ≠ some '\n' := by
  intro l
  induction l with
  | nil =>
    intro c _ hc
    simp [hc]
  | cons b t ih =>
    intro c hl _
    rw [List.getLast?_cons_cons]
    exact ih b (fun hm => hl (List.mem_cons_of_mem _ hm)) (fun hb => hl (by simp [hb]))

/-- Prefixing a newline-free line with a marker character other than a newline
leaves `endswith("\n")` false, so `__format_line`'s `removesuffix` is a no-op. -/
theorem pyEndsWith_charCons_false {x : String} (hx : '\n' ∉ x.data) {c : Char}
    (hc : c ≠ '\n') : pyEndsWith '\n' (charCons c x) = false := by
  unfold pyEndsWith charCons
  simp only [beq_eq_false_iff_ne, ne_eq]
  exact getLast_ne_nl x.data c hx hc

/-- Dropping the marker character recovers the payload. -/
theorem pyTail_charCons (c : Char) (x : String) : pyTail (charCons c x) = x := by
  cases x with
  | mk d => rfl

/-- `__format_line` on a `"-"`-marked newline-free line. -/
theorem formatLine_minus {x : String} (hx : '\n' ∉ x.data) :
    formatLine (charCons '-' x) = .minus x := by
  have he := pyEndsWith_charCons_false hx (show ('-' : Char) ≠ '\n' by decide)
  have hs : pyStartsWith '-' (charCons '-' x) = true := by
    simp [pyStartsWith, charCons]
  simp only [formatLine, he, Bool.false_eq_true, if_false, hs, if_true]
  rw [pyTail_charCons]

/-- `__format_line` on a `"+"`-marked newline-free line. -/
theorem formatLine_plus {x : String} (hx : '\n' ∉ x.data) :
    formatLine (charCons '+' x) = .plus x := by
  have he := pyEndsWith_charCons_false hx (show ('+' : Char) ≠ '\n' by decide)
  have hs1 : pyStartsWith '-' (charCons '+' x) = false := by
    simp [pyStartsWith, charCons]
  have hs2 : pyStartsWith '+' (charCons '+' x) = true := by
    simp [pyStartsWith, charCons]
  simp only [formatLine, he, Bool.false_eq_true, if_false, hs1, hs2, if_true]
  rw [pyTail_charCons]

/-- `__format_line` on a context line (space-marked, newline-free). -/
theorem formatLine_context {x : String} (hx : '\n' ∉ x.data) :
    formatLine (charCons ' ' x) = .context (charCons ' ' (charCons ' ' x)) := by
  have he := pyEndsWith_charCons_false hx (show (' ' : Char) ≠ '\n' by decide)
  have hs1 : pyStartsWith '-' (charCons ' ' x) = false := by
    simp [pyStartsWith, charCons]
  have hs2 : pyStartsWith '+' (charCons ' ' x) = false := by
    simp [pyStartsWith, charCons]
  simp only [formatLine, he, Bool.false_eq_true, if_false, hs1, hs2]

/-- Hunk-location lines start with "@" and are therefore filtered out. -/
theorem pyStartsWith_hunkLine (g : List Opcode) : pyStartsWith '@' (hunkLine g) = true := by
  simp [hunkLine, pyStartsWith, String.data_append]

/-- Every content line emitted for an opcode is a marked line of the proper
side: `"-"` over `a`, `"+"` over `b`, `" "` over `a`. -/
theorem mem_opLines {a b : List String} {op : Opcode} {line : String}
    (h : line ∈ opLines a b op) :
    (∃ x ∈ a, line = charCons '-' x) ∨ (∃ x ∈ b, line = charCons '+' x) ∨
    (∃ x ∈ a, line = charCons ' ' x) := by
  unfold opLines at h
  cases htag : op.tag <;> rw [htag] at h
  case equal =>
    rcases List.mem_map.mp h with ⟨x, hx, rfl⟩
    exact Or.inr (Or.inr ⟨x, mem_pySlice hx, rfl⟩)
  case replace =>
    rcases List.mem_append.mp h with h2 | h2
    · rcases List.mem_map.mp h2 with ⟨x, hx, rfl⟩
      exact Or.inl ⟨x, mem_pySlice hx, rfl⟩
    · rcases List.mem_map.mp h2 with ⟨x, hx, rfl⟩
      exact Or.inr (Or.inl ⟨x, mem_pySlice hx, rfl⟩)
  case delete =>
    rcases List.mem_map.mp h with ⟨x, hx, rfl⟩
    exact Or.inl ⟨x, mem_pySlice hx, rfl⟩
  case insert =>
    rcases List.mem_map.mp h with ⟨x, hx, rfl⟩
    exact Or.inr (Or.inl ⟨x, mem_pySlice hx, rfl⟩)

/-- Claim C8 (amended): in the rendered diff body the header and hunk lines
are stripped, and every remaining line's payload comes from the side its
marker denotes — a "-" line carries a line of the actual ("got") output, a
"+" line carries a line of the expected output (the opposite orientation of
the claim), and a context line carries an actual-output line behind the added
spacing. -/
theorem diff_line_sides (e a : String) (d : DiffLine)
    (h : d ∈ renderTextualDiff e a) :
    lineOk (actLines e a) (expLines e a) d = true := by
  unfold renderTextualDiff at h
  rcases List.mem_map.mp h with ⟨line, hline, rfl⟩
  rcases List.mem_filter.mp hline with ⟨hmem, hnotAt⟩
  unfold unifiedDiffLines at hmem
  by_cases hg : groupedOpcodes 3 (actLines e a) (expLines e a) = []
  · rw [if_pos hg] at hmem
    simp at hmem
  · rw [if_neg hg] at hmem
    simp only [List.cons_append, List.nil_append, List.drop_succ_cons,
      List.drop_zero] at hmem
    rcases List.mem_flatMap.mp hmem with ⟨g, _, hlg⟩
    rcases List.mem_cons.mp hlg with hhunk | hcontent
    · rw [hhunk, pyStartsWith_hunkLine] at hnotAt
      simp at hnotAt
    · rcases List.mem_flatMap.mp hcontent with ⟨op, _, hlop⟩
      rcases mem_opLines hlop with ⟨x, hx, rfl⟩ | ⟨x, hx, rfl⟩ | ⟨x, hx, rfl⟩
      · have hnl : '\n' ∉ x.data := by
          unfold actLines at hx
          exact pySplitLines_no_nl _ x hx
        rw [formatLine_minus hnl]
        simpa [lineOk, List.contains] using List.elem_eq_true_of_mem hx
      · have hnl : '\n' ∉ x.data := by
          unfold expLines at hx
          exact pySplitLines_no_nl _ x hx
        rw [formatLine_plus hnl]
        simpa [lineOk, List.contains] using List.elem_eq_true_of_mem hx
      · have hnl : '\n' ∉ x.data := by
          unfold actLines at hx
          exact pySplitLines_no_nl _ x hx
        rw [formatLine_context hnl]
        have hmm : charCons ' ' (charCons ' ' x)
            ∈ (actLines e a).map (fun y => charCons ' ' (charCons ' ' y)) :=
          List.mem_map_of_mem _ hx
        simpa [lineOk, List.contains] using List.elem_eq_true_of_mem hmm

/-- Witness for C8: on `expected="a"`, `actual="b"` the rendered line
`- b` indeed carries a line of the actual output. -/
theorem diff_line_sides_witness :
    (DiffLine.minus "b") ∈ renderTextualDiff "a" "b" ∧
    lineOk (actLines "a" "b") (expLines "a" "b") (.minus "b") = true :=
  ⟨by decide, diff_line_sides "a" "b" (.minus "b") (by decide)⟩

/-- Counterexample to claim C8 as stated: for `expected="a"`, `actual="b"` the
diff body is `[- b, + a]`; the "+"-marked payload "a" is not a line of the
actual ("got") output at all — it is the expected side's line, so "+" does not
mark lines present only in the actual output. -/
theorem diff_plus_marks_expected_side :
    renderTextualDiff "a" "b" = [.minus "b", .plus "a"] ∧
    actLines "a" "b" = ["b"] ∧
    ("a" : String) ∉ actLines "a" "b" := by
  refine ⟨by decide, by decide, by decide⟩
